import Mathlib

/-!
# duel.io server: matchmaking, duel pairing, duel resolution and broadcast

A shallow embedding of `main.go`.  The server keeps a registry `players`
(a Go map from username to `*Player`), one `Conn` per session with an optional
owned player, and goroutines for matchmaking (`enterDuel`) and for the two
relays of a duel (`duelPlayer`).

Conventions of the embedding:

* a `*Player` is an address `Ptr`; the heap maps every address to the record
  stored there, and `nil` is `none : Option Ptr`;
* the registry is the list of its entries in the order a `range` loop visits
  them;
* `Rank` is a `float64` in the source.  Every rank the program produces is
  `RankRange / 2 = 5` plus or minus a number of duel results, an integer that
  `float64` holds exactly up to magnitude `2 ^ 53`; the model takes `Rank : Int`
  and is exact on that range;
* `WriteJSON` appends the message to the log `out`; whether the write reports an
  error is decided by the environment (`wfail`);
* every section of code that runs under `s.mu` (and every handler of one
  request) is one atomic function on the server state.
-/

namespace Duel

/-! ## Data model -/

/-- Address of a `Player` record (`*Player`). -/
abbrev Ptr := Nat

/-- Address of a `Conn` record (`*Conn`), one per session. -/
abbrev ConnId := Nat

/-- A decoded JSON value held in a `map[string]any`: `nil`, a bool, a number, a
string, or a composite (array or object) that the server only passes through. -/
inductive JVal where
  | null
  | bool (b : Bool)
  | num (n : Int)
  | str (s : String)
  | composite (raw : String)
  deriving DecidableEq, Repr

/-- A Go `map[string]any`; the `nil` map and the empty map are both `[]`. -/
abbrev DataMap := List (String × JVal)

/-- Map index `m[k]`: the stored value, or `nil` when the key is absent. -/
def index (m : DataMap) (k : String) : JVal :=
  match m.lookup k with
  | some v => v
  | none => JVal.null

/-- `DuelMessage`: the `request_type` tag and the payload. -/
structure DuelMessage where
  /-- the field `Type` -/
  Typ : String
  Data : DataMap
  deriving DecidableEq, Repr

/-- `Player` (the embedded `*GameState` is never read or written). -/
structure Player where
  Username : String
  Rank : Int
  dueling : Bool
  matchmaking : Bool
  conn : ConnId
  duelChan : List DuelMessage
  deriving DecidableEq, Repr

instance : Inhabited Player := ⟨⟨"", 0, false, false, 0, []⟩⟩

def RankRange : Int := 10

def MatchmakingStatus : Nat := 0

def FoundDuelStatus : Nat := 1

/-- `math.MaxFloat64`, which is the integer `2 ^ 1024 - 2 ^ 971`, written out. -/
def MaxFloat64 : Int :=
  179769313486231570814527423731704356798070567525844996598917476803157260780028538760589558632766878171540458953514382464234321326889464182768467546703537516986049910576551282076245490090389328944075868508455133942304583236903222948165808559332123348274797826204144723168738177180919299881250404026184124858368

/-- Capacity of `duelChan`: `make(chan *DuelMessage, 1)`. -/
def duelChanCap : Nat := 1

/-- `NewPlayer`. -/
def NewPlayer (username : String) (conn : ConnId) : Player :=
  { Username := username, Rank := RankRange / 2, dueling := false, matchmaking := false,
    conn := conn, duelChan := [] }

/-- The JSON objects the server writes to a connection, one constructor per
object shape, the fields being the values of its keys. -/
inductive OutMsg where
  /-- `{"request_type": errType, "message": msg}` -/
  | error (request_type : String) (message : String)
  /-- `{"request_type": "new-player-success", "data": {"username": username}}` -/
  | newPlayerSuccess (request_type : String) (username : String)
  /-- `{"request_type": "enter-duel", "message": .., "status": ..}` -/
  | enterDuel (request_type : String) (message : String) (status : Nat)
  /-- `{"request_type": "enter-duel", "message": .., "status": .., "position": ..,
  "match": {"username": .., "rank": ..}}` -/
  | enterDuelSuccess (request_type : String) (message : String) (status : Nat)
      (position : String) (matchUsername : String) (matchRank : Int)
  /-- `{"request_type": msg.Type, "data": msg.Data}` -/
  | relayed (request_type : String) (data : DataMap)
  /-- `{"request_type": msg.Type, "result": .., "new_rank": ..}` -/
  | duelResult (request_type : String) (result : String) (new_rank : Int)
  /-- `{"request_type": "players-update", "players": [{"username", "rank"}, ..]}` -/
  | playersUpdate (request_type : String) (players : List (String × Int))
  deriving DecidableEq, Repr

/-- State of one `enterDuel` goroutine. -/
inductive Matchmaker where
  /-- spawned by `go s.enterDuel(username)`, nothing executed yet -/
  | spawned (username : String)
  /-- inside `for match == nil`, with `player` as fetched on entry (`none` is `nil`) -/
  | searching (username : String) (player : Option Ptr)
  /-- the loop was left with `match != nil`; `s.duel(player, match)` not yet called -/
  | matched (player : Ptr) (found : Ptr)
  /-- returned, or inside `s.duel` past its locked section -/
  | finished
  deriving DecidableEq, Repr

/-- The server: the fields of `Server`, the heap of `Player` records, the
`player` field of every `Conn`, and what the goroutines have done so far. -/
structure Server where
  /-- `s.players`, in iteration order -/
  players : List (String × Ptr)
  /-- the `Player` record at each address -/
  heap : Ptr → Player
  /-- next unused address -/
  next : Ptr
  /-- `conn.player` -/
  connPlayer : ConnId → Option Ptr
  /-- connections on which `WriteJSON` returns an error -/
  wfail : ConnId → Bool
  /-- every `WriteJSON` call so far, oldest first -/
  out : List (ConnId × OutMsg)
  /-- the `enterDuel` goroutines -/
  matchmakers : List Matchmaker
  /-- the duels whose two `duelPlayer` relays were started by `duel` -/
  duels : List (Ptr × Ptr)
  /-- number of calls of `broadcastPlayers` so far -/
  broadcasts : Nat

/-- `NewServer()`. -/
def NewServer : Server :=
  { players := [], heap := fun _ => default, next := 0, connPlayer := fun _ => none,
    wfail := fun _ => false, out := [], matchmakers := [], duels := [], broadcasts := 0 }

/-- Store `v` at address `p`. -/
def store (heap : Ptr → Player) (p : Ptr) (v : Player) : Ptr → Player :=
  fun q => if q = p then v else heap q

/-- `c.WriteJSON(msg)`: the call is logged, and the result tells whether it
returned an error. -/
def WriteJSON (s : Server) (c : ConnId) (msg : OutMsg) : Server × Bool :=
  ({ s with out := s.out ++ [(c, msg)] }, s.wfail c)

/-! ## Duel resolution -/

/-- `p.sendDuelResults(msg, other)`.  `msg.Data["player_won"] == p.Username`
compares an `any` with a string: it holds exactly when the value is a string
equal to the username. -/
def sendDuelResults (s : Server) (p : Ptr) (msg : DuelMessage) (other : Ptr) : Server :=
  let won := decide (index msg.Data "player_won" = JVal.str (s.heap p).Username)
  let s1 : Server :=
    if won then { s with heap := store s.heap p { s.heap p with Rank := (s.heap p).Rank + 1 } }
    else { s with heap := store s.heap p { s.heap p with Rank := (s.heap p).Rank - 1 } }
  let playerWon : Ptr := if won then p else other
  (WriteJSON s1 (s1.heap p).conn
    (OutMsg.duelResult msg.Typ (s1.heap playerWon).Username (s1.heap p).Rank)).1

/-- Both relays of a duel resolve the same `game-end` message: first `p1`
(`p1.sendDuelResults(msg, p2)`), then `p2` (`p2.sendDuelResults(msg, p1)`). -/
def resolveBoth (s : Server) (p1 p2 : Ptr) (msg : DuelMessage) : Server :=
  sendDuelResults (sendDuelResults s p1 msg p2) p2 msg p1

/-- One rank went up by one and the other went down by one. -/
def RankExchange (s s' : Server) (p1 p2 : Ptr) : Prop :=
  ((s'.heap p1).Rank = (s.heap p1).Rank + 1 ∧ (s'.heap p2).Rank = (s.heap p2).Rank - 1) ∨
  ((s'.heap p1).Rank = (s.heap p1).Rank - 1 ∧ (s'.heap p2).Rank = (s.heap p2).Rank + 1)

/-! ## Broadcast -/

/-- The comparison handed to `sort.Slice`: `players[i].Rank > players[j].Rank`. -/
def rankLess (heap : Ptr → Player) (a b : Ptr) : Bool :=
  decide ((heap a).Rank > (heap b).Rank)

/-- Insert `x` behind the elements that `less` puts before it. -/
def sortInsert (less : Ptr → Ptr → Bool) (x : Ptr) : List Ptr → List Ptr
  | [] => [x]
  | y :: ys => if less y x then y :: sortInsert less x ys else x :: y :: ys

/-- `sort.Slice(players, less)` of the Go standard library, taken as an insertion
sort driven by the `less` function of the call. -/
def sortSlice (less : Ptr → Ptr → Bool) : List Ptr → List Ptr
  | [] => []
  | x :: xs => sortInsert less x (sortSlice less xs)

/-- The slice `players` of `broadcastPlayers` after `sort.Slice`. -/
def sortedPlayers (s : Server) : List Ptr :=
  sortSlice (rankLess s.heap) (s.players.map Prod.snd)

/-- The `players-update` notification of `broadcastPlayers`; a `Player` is
serialised as its `username` and `rank`. -/
def playersUpdate (s : Server) : OutMsg :=
  OutMsg.playersUpdate "players-update"
    ((sortedPlayers s).map fun p => ((s.heap p).Username, (s.heap p).Rank))

/-- The loop of `broadcastJSON` over the registry entries still to visit; the
result tells whether a write failed, which ends the loop. -/
def broadcastLoop (msg : OutMsg) : List (String × Ptr) → Server → Server × Bool
  | [], s => (s, false)
  | e :: rest, s =>
    let r := WriteJSON s (s.heap e.2).conn msg
    if r.2 then (r.1, true) else broadcastLoop msg rest r.1

/-- `s.broadcastJSON(msg)`. -/
def broadcastJSON (s : Server) (msg : OutMsg) : Server × Bool :=
  broadcastLoop msg s.players s

/-- `s.broadcastPlayers()`. -/
def broadcastPlayers (s : Server) : Server × Bool :=
  broadcastJSON { s with broadcasts := s.broadcasts + 1 } (playersUpdate s)

/-! ## Session requests -/

/-- A successfully decoded inbound envelope. -/
structure Envelope where
  RequestType : String
  Data : DataMap
  deriving DecidableEq, Repr

/-- How the handling of one envelope ends: the switch is left and the read loop
goes on, or the goroutine panics, or it stays blocked on a full `duelChan`. -/
inductive Outcome where
  | done (s : Server)
  | panic
  | blocked

/-- `c.writeErrMsg(requestType, msg)`. -/
def writeErrMsg (s : Server) (c : ConnId) (requestType : String) (msg : String) : Server :=
  let errType := if requestType ≠ "" then requestType ++ "-error" else "error"
  (WriteJSON s c (OutMsg.error errType msg)).1

/-- `s.playerExists(username)`. -/
def playerExists (s : Server) (username : String) : Bool :=
  (s.players.lookup username).isSome

/-- `s.players[username] = player`. -/
def mapInsert (m : List (String × Ptr)) (k : String) (v : Ptr) : List (String × Ptr) :=
  if (m.lookup k).isSome then m.map fun e => if e.1 = k then (k, v) else e
  else m ++ [(k, v)]

/-- `delete(s.players, username)`. -/
def mapDelete (m : List (String × Ptr)) (k : String) : List (String × Ptr) :=
  m.filter fun e => decide (e.1 ≠ k)

/-- `p.duelChan <- msg` on the buffered channel: `none` when the buffer is full
and the sender has to wait. -/
def chanSend (s : Server) (p : Ptr) (msg : DuelMessage) : Option Server :=
  if (s.heap p).duelChan.length < duelChanCap then
    let player : Player := { s.heap p with duelChan := (s.heap p).duelChan ++ [msg] }
    some { s with heap := store s.heap p player }
  else none

/-- The body of the read loop of `handleConn` for one decoded envelope on
connection `c`: the `switch data.RequestType`. -/
def handleRequest (s : Server) (c : ConnId) (e : Envelope) : Outcome :=
  if e.RequestType = "new-player" then
    match index e.Data "username" with
    | JVal.str username =>
      if playerExists s username then
        Outcome.done (writeErrMsg s c "new-player"
          ("Player with username \"" ++ username ++ "\" already exists"))
      else if (s.connPlayer c).isSome then
        Outcome.done (writeErrMsg s c "new-player" "Player is already registered on connection")
      else if username.utf8ByteSize > 15 then
        Outcome.done (writeErrMsg s c "new-player" "Username must be under 16 characters")
      else
        let player := s.next
        let s1 : Server :=
          { s with heap := store s.heap player (NewPlayer username c),
                   next := s.next + 1,
                   players := mapInsert s.players username player,
                   connPlayer := fun d => if d = c then some player else s.connPlayer d }
        let r := WriteJSON s1 c (OutMsg.newPlayerSuccess "new-player-success" username)
        if r.2 then Outcome.done r.1 else Outcome.done (broadcastPlayers r.1).1
    | _ => Outcome.panic
  else if e.RequestType = "enter-duel" then
    match s.connPlayer c with
    | none => Outcome.done (writeErrMsg s c "enter-duel" "Player is not registered")
    | some p =>
      if (s.heap p).dueling || (s.heap p).matchmaking then
        Outcome.done (writeErrMsg s c "enter-duel" "Player already entered duel")
      else
        let username := (s.heap p).Username
        let s1 := (WriteJSON s c
          (OutMsg.enterDuel "enter-duel" "Matchmaking..." MatchmakingStatus)).1
        match s1.players.lookup username with
        | none => Outcome.panic
        | some q =>
          Outcome.done
            { s1 with heap := store s1.heap q { s1.heap q with matchmaking := true },
                      matchmakers := s1.matchmakers ++ [Matchmaker.spawned username] }
  else if e.RequestType = "sign-out" then
    match s.connPlayer c with
    | none => Outcome.done (writeErrMsg s c "sign-out" "Player is not registered")
    | some p =>
      let username := (s.heap p).Username
      match chanSend s p { Typ := "sign-out", Data := [] } with
      | none => Outcome.blocked
      | some s1 =>
        let player : Player := { s1.heap p with dueling := false, matchmaking := false }
        let s2 : Server :=
          { s1 with heap := store s1.heap p player,
                    players := mapDelete s1.players username,
                    connPlayer := fun d => if d = c then none else s1.connPlayer d }
        Outcome.done (broadcastPlayers s2).1
  else if e.RequestType = "game-state" then
    match s.connPlayer c with
    | none => Outcome.done (writeErrMsg s c "game-state" "Player is not registered")
    | some p =>
      if !(s.heap p).dueling then
        Outcome.done (writeErrMsg s c "game-state" "Player is not dueling")
      else
        match chanSend s p { Typ := "game-state", Data := e.Data } with
        | none => Outcome.blocked
        | some s1 => Outcome.done s1
  else if e.RequestType = "game-end" then
    match s.connPlayer c with
    | none => Outcome.done (writeErrMsg s c "game-end" "Player is not registered")
    | some p =>
      if !(s.heap p).dueling then
        Outcome.done (writeErrMsg s c "game-end" "Player is not dueling")
      else
        match chanSend s p { Typ := "game-end", Data := e.Data } with
        | none => Outcome.blocked
        | some s1 => Outcome.done s1
  else Outcome.done s

/-- The requests that fail validation: `new-player` with a username that is
already registered, or from a session that owns a player, or with a username longer
than 15 (counted in characters, or in bytes as `len` does); `enter-duel` from a
session without a player or whose player is matchmaking or dueling; `game-state` or
`game-end` from a session without a player or whose player is not dueling;
`sign-out` from a session without a player. -/
def FailsValidation (s : Server) (c : ConnId) (e : Envelope) : Prop :=
  (e.RequestType = "new-player" ∧ ∃ username, index e.Data "username" = JVal.str username ∧
    (playerExists s username = true ∨ (s.connPlayer c).isSome = true ∨
      15 < username.length ∨ 15 < username.utf8ByteSize)) ∨
  (e.RequestType = "enter-duel" ∧
    (s.connPlayer c = none ∨
      ∃ p, s.connPlayer c = some p ∧
        ((s.heap p).matchmaking = true ∨ (s.heap p).dueling = true))) ∨
  ((e.RequestType = "game-state" ∨ e.RequestType = "game-end") ∧
    (s.connPlayer c = none ∨ ∃ p, s.connPlayer c = some p ∧ (s.heap p).dueling = false)) ∨
  (e.RequestType = "sign-out" ∧ s.connPlayer c = none)

/-! ## Matchmaking -/

/-- The condition of the scan: `curr != player && !curr.dueling && curr.matchmaking`. -/
def eligible (heap : Ptr → Player) (player curr : Ptr) : Bool :=
  decide (curr ≠ player) && !(heap curr).dueling && (heap curr).matchmaking

/-- `math.Abs(player.Rank - curr.Rank)`. -/
def rankDiff (heap : Ptr → Player) (player curr : Ptr) : Int :=
  |(heap player).Rank - (heap curr).Rank|

/-- The body of `for _, curr := range s.players` on the pair `(minDiff, match)`. -/
def scanEntry (heap : Ptr → Player) (player : Ptr) (acc : Int × Option Ptr) (curr : Ptr) :
    Int × Option Ptr :=
  if eligible heap player curr then
    if rankDiff heap player curr < acc.1 then (rankDiff heap player curr, some curr) else acc
  else acc

/-- The scan `for _, curr := range s.players` over the entries in iteration
order, from given values of `minDiff` and `match`. -/
def scanFrom (heap : Ptr → Player) (player : Ptr) (acc : Int × Option Ptr)
    (order : List (String × Ptr)) : Int × Option Ptr :=
  order.foldl (fun a e => scanEntry heap player a e.2) acc

/-- The scan of one pass.  A pass starts with `match == nil`, and `minDiff` is only
assigned together with `match`, so it starts with `minDiff == math.MaxFloat64`. -/
def scanPlayers (heap : Ptr → Player) (player : Ptr) (order : List (String × Ptr)) :
    Option Ptr :=
  (scanFrom heap player (MaxFloat64, none) order).2

/-- The ranks on which the integer model of `float64` is exact: integers of
magnitude at most `2 ^ 53`.  Every rank the program can hold is in this range: ranks
start at 5 and move by one, and `float64` cannot step past `2 ^ 53` by adding one. -/
def ExactRank (r : Int) : Prop := |r| ≤ 9007199254740992

instance : DecidablePred ExactRank := fun r =>
  inferInstanceAs (Decidable (|r| ≤ 9007199254740992))

/-- How one pass of `for match == nil` ends. -/
inductive Pass where
  /-- `return`: the player is dueling, or its username left the registry -/
  | returned
  /-- the scan left `match == nil`; the loop runs again -/
  | again
  /-- the scan set `match`; the loop ends and `s.duel(player, match)` follows -/
  | found (m : Ptr)
  deriving DecidableEq, Repr

/-- One pass of the loop of `enterDuel(username)`, `player` being the pointer
fetched on entry. -/
def enterDuelPass (s : Server) (username : String) (player : Ptr) : Pass :=
  if (s.heap player).dueling then Pass.returned
  else if !(s.players.lookup username).isSome then Pass.returned
  else
    match scanPlayers s.heap player s.players with
    | none => Pass.again
    | some m => Pass.found m

/-! ## Duel pairing and relays -/

/-- `p.sendEnterDuelSuccess(other, pos)`. -/
def sendEnterDuelSuccess (s : Server) (p other : Ptr) (pos : String) : Server :=
  (WriteJSON s (s.heap p).conn
    (OutMsg.enterDuelSuccess "enter-duel"
      ("Successfully started duel with \"" ++ (s.heap other).Username ++ "\"")
      FoundDuelStatus pos (s.heap other).Username (s.heap other).Rank)).1

/-- `s.duel(p1, p2)` up to the start of the two relays: the check, the locked
section, and the two `go ... duelPlayer(...)`, recorded in `duels`. -/
def duel (s : Server) (p1 p2 : Ptr) : Server :=
  if (s.heap p1).dueling && (s.heap p2).dueling then s
  else
    let s1 := sendEnterDuelSuccess s p1 p2 "left"
    let s2 := sendEnterDuelSuccess s1 p2 p1 "right"
    let s3 : Server := { s2 with heap := store s2.heap p1 { s2.heap p1 with matchmaking := false } }
    let s4 : Server := { s3 with heap := store s3.heap p2 { s3.heap p2 with matchmaking := false } }
    let s5 : Server := { s4 with heap := store s4.heap p1 { s4.heap p1 with dueling := true } }
    let s6 : Server := { s5 with heap := store s5.heap p2 { s5.heap p2 with dueling := true } }
    { s6 with duels := s6.duels ++ [(p1, p2)] }

/-- What the forwarding goroutine of `duelPlayer` pushes for one message. -/
structure Forward where
  /-- pushed on `playerChan` -/
  toPlayerChan : List DuelMessage
  /-- pushed on `otherChan` -/
  toOtherChan : List DuelMessage
  /-- the goroutine returns -/
  exit : Bool
  deriving DecidableEq, Repr

/-- `msg := <-p.duelChan`: the oldest message of the mailbox, `none` while it is empty. -/
def chanRecv (s : Server) (p : Ptr) : Option (DuelMessage × Server) :=
  match (s.heap p).duelChan with
  | [] => none
  | msg :: rest => some (msg, { s with heap := store s.heap p { s.heap p with duelChan := rest } })

/-- The body of the forwarding loop of `p.duelPlayer(other, ..)` for the message
`msg` taken from `p.duelChan`. -/
def forward (s : Server) (other : Ptr) (msg : DuelMessage) : Forward :=
  if msg.Typ = "sign-out" then
    let gameEndMessage : DuelMessage :=
      { Typ := "game-end", Data := [("player_won", JVal.str (s.heap other).Username)] }
    { toPlayerChan := [gameEndMessage], toOtherChan := [gameEndMessage], exit := true }
  else if msg.Typ = "game-end" then
    { toPlayerChan := [msg], toOtherChan := [msg], exit := true }
  else
    { toPlayerChan := [msg], toOtherChan := [], exit := false }

/-- The body of the outer loop of `p.duelPlayer(other, ..)` for the message
`otherMsg` received on `otherChan`; on `game-end` the function returns and its
deferred `p.dueling = false` runs. -/
def duelPlayerRecv (s : Server) (p other : Ptr) (otherMsg : DuelMessage) : Server :=
  if otherMsg.Typ = "game-end" then
    let s1 := sendDuelResults s p otherMsg other
    { s1 with heap := store s1.heap p { s1.heap p with dueling := false } }
  else if otherMsg.Typ = "game-state" then
    (WriteJSON s (s.heap p).conn (OutMsg.relayed otherMsg.Typ otherMsg.Data)).1
  else s

/-! ## Interleavings -/

/-- One atomic step of the server. -/
inductive Action where
  /-- session `c` handles the decoded envelope `e` -/
  | request (c : ConnId) (e : Envelope)
  /-- matchmaker `i` fetches its player: `player := s.players[username]` -/
  | lookup (i : Nat)
  /-- matchmaker `i` runs one pass of its loop, the `range` visiting the registry
  in the order `order` -/
  | scan (i : Nat) (order : List (String × Ptr))
  /-- matchmaker `i` calls `s.duel(player, match)` -/
  | pair (i : Nat)
  deriving DecidableEq, Repr

/-- The step function; `none` when the action cannot run in `s` (no such
goroutine at that point, a blocked send, a panic, or an order that is not an
order of the registry). -/
def step (s : Server) : Action → Option Server
  | Action.request c e =>
    match handleRequest s c e with
    | Outcome.done s' => some s'
    | _ => none
  | Action.lookup i =>
    match s.matchmakers.get? i with
    | some (Matchmaker.spawned u) =>
      some { s with matchmakers := s.matchmakers.set i (Matchmaker.searching u (s.players.lookup u)) }
    | _ => none
  | Action.scan i order =>
    match s.matchmakers.get? i with
    | some (Matchmaker.searching u (some player)) =>
      if order.isPerm s.players then
        match enterDuelPass { s with players := order } u player with
        | Pass.returned => some { s with matchmakers := s.matchmakers.set i Matchmaker.finished }
        | Pass.again => some s
        | Pass.found m =>
          some { s with matchmakers := s.matchmakers.set i (Matchmaker.matched player m) }
      else none
    | _ => none
  | Action.pair i =>
    match s.matchmakers.get? i with
    | some (Matchmaker.matched p m) =>
      some (duel { s with matchmakers := s.matchmakers.set i Matchmaker.finished } p m)
    | _ => none

/-- Run a sequence of steps from `s`. -/
def run (s : Server) : List Action → Option Server
  | [] => some s
  | a :: rest =>
    match step s a with
    | some s' => run s' rest
    | none => none

/-- Number of started duels that `p` takes part in. -/
def duelCount (s : Server) (p : Ptr) : Nat :=
  (s.duels.filter fun d => decide (d.1 = p) || decide (d.2 = p)).length

/-! ## States, messages and interleavings used as concrete instances -/

/-- A server with two registered players, `alice` at address 0 on connection 0
and `bob` at address 1 on connection 1, both freshly created. -/
def twoPlayers : Server :=
  { NewServer with
    players := [("alice", 0), ("bob", 1)],
    heap := store (store NewServer.heap 0 (NewPlayer "alice" 0)) 1 (NewPlayer "bob" 1),
    next := 2,
    connPlayer := fun c => if c = 0 then some 0 else if c = 1 then some 1 else none }

/-- The server `twoPlayers` after `bob` has asked for a duel: `bob` is matchmaking. -/
def bobWaiting : Server :=
  { twoPlayers with
    heap := store twoPlayers.heap 1 { NewPlayer "bob" 1 with matchmaking := true } }

/-- A registry visited in the order `alice`, `bob`, `carol`: `alice` (rank 5) looks
for an opponent, `bob` (rank 7) and `carol` (rank 3) are both matchmaking and equally
far from `alice`. -/
def tieWaiting : Server :=
  { NewServer with
    players := [("alice", 0), ("bob", 1), ("carol", 2)],
    heap := store (store (store NewServer.heap 0 (NewPlayer "alice" 0)) 1
      { NewPlayer "bob" 1 with Rank := 7, matchmaking := true }) 2
      { NewPlayer "carol" 2 with Rank := 3, matchmaking := true },
    next := 3,
    connPlayer := fun c => if c < 3 then some c else none }

/-- The payload `{"player_won": name}` of a `game-end` message. -/
def gameEnd (name : String) : DuelMessage :=
  { Typ := "game-end", Data := [("player_won", JVal.str name)] }

/-- The envelope `{"request_type": "new-player", "data": {"username": u}}`. -/
def newPlayerRequest (u : String) : Envelope :=
  { RequestType := "new-player", Data := [("username", JVal.str u)] }

/-- The envelope `{"request_type": "enter-duel"}`. -/
def enterDuelRequest : Envelope :=
  { RequestType := "enter-duel", Data := [] }

/-- An interleaving from the empty server.  Sessions 0, 1, 2 register `a`, `b`, `c`
(at addresses 0, 1, 2) and all ask for a duel.  The matchmaker of `a` scans and
selects `b`; before it calls `duel`, the matchmaker of `b` scans and selects `c`
(all ranks are equal, so each scan keeps the first eligible entry its `range`
visits) and pairs `b` with `c`; then the matchmaker of `a` calls `duel(a, b)`. -/
def doublePairing : List Action :=
  [Action.request 0 (newPlayerRequest "a"), Action.request 1 (newPlayerRequest "b"),
   Action.request 2 (newPlayerRequest "c"),
   Action.request 0 enterDuelRequest, Action.request 1 enterDuelRequest,
   Action.request 2 enterDuelRequest,
   Action.lookup 0, Action.lookup 1,
   Action.scan 0 [("b", 1), ("c", 2), ("a", 0)],
   Action.scan 1 [("c", 2), ("a", 0), ("b", 1)],
   Action.pair 1, Action.pair 0]

/-! ## Theorems -/

theorem store_same (heap : Ptr → Player) (p : Ptr) (v : Player) : store heap p v p = v := by
  simp [store]

theorem store_other (heap : Ptr → Player) (p q : Ptr) (v : Player) (h : q ≠ p) :
    store heap p v q = heap q := by
  simp [store, h]

theorem sendDuelResults_heap_other (s : Server) (p other r : Ptr) (msg : DuelMessage)
    (h : r ≠ p) : (sendDuelResults s p msg other).heap r = s.heap r := by
  unfold sendDuelResults
  by_cases hw : index msg.Data "player_won" = JVal.str (s.heap p).Username <;>
    simp [hw, WriteJSON, store, h]

theorem sendDuelResults_rank (s : Server) (p other : Ptr) (msg : DuelMessage) :
    ((sendDuelResults s p msg other).heap p).Rank =
      if index msg.Data "player_won" = JVal.str (s.heap p).Username then (s.heap p).Rank + 1
      else (s.heap p).Rank - 1 := by
  unfold sendDuelResults
  by_cases hw : index msg.Data "player_won" = JVal.str (s.heap p).Username <;>
    simp [hw, WriteJSON, store]

theorem sendDuelResults_username (s : Server) (p other r : Ptr) (msg : DuelMessage) :
    ((sendDuelResults s p msg other).heap r).Username = (s.heap r).Username := by
  unfold sendDuelResults
  by_cases hw : index msg.Data "player_won" = JVal.str (s.heap p).Username <;>
    by_cases hr : r = p <;> simp [hw, WriteJSON, store, hr]

theorem sendDuelResults_conn (s : Server) (p other r : Ptr) (msg : DuelMessage) :
    ((sendDuelResults s p msg other).heap r).conn = (s.heap r).conn := by
  unfold sendDuelResults
  by_cases hw : index msg.Data "player_won" = JVal.str (s.heap p).Username <;>
    by_cases hr : r = p <;> simp [hw, WriteJSON, store, hr]

theorem sendDuelResults_out (s : Server) (p other : Ptr) (msg : DuelMessage) :
    (sendDuelResults s p msg other).out = s.out ++
      [((s.heap p).conn, OutMsg.duelResult msg.Typ
        (if index msg.Data "player_won" = JVal.str (s.heap p).Username then (s.heap p).Username
          else (s.heap other).Username)
        (if index msg.Data "player_won" = JVal.str (s.heap p).Username then (s.heap p).Rank + 1
          else (s.heap p).Rank - 1))] := by
  unfold sendDuelResults
  by_cases hw : index msg.Data "player_won" = JVal.str (s.heap p).Username <;>
    by_cases hr : other = p <;> simp [hw, WriteJSON, store, hr]

/-- C1 (as amended): when the two participants are distinct players with distinct
usernames and `player_won` is the username of one of them, then after both have
resolved the message the participant that `player_won` names has its rank up by one
and the other participant has its rank down by one (so exactly one rank went up and
the other went down), and every other player record is unchanged. -/
theorem resolveBoth_rank_exchange (s : Server) (p1 p2 : Ptr) (msg : DuelMessage)
    (hne : p1 ≠ p2) (hu : (s.heap p1).Username ≠ (s.heap p2).Username)
    (hw : index msg.Data "player_won" = JVal.str (s.heap p1).Username ∨
      index msg.Data "player_won" = JVal.str (s.heap p2).Username) :
    (index msg.Data "player_won" = JVal.str (s.heap p1).Username →
      ((resolveBoth s p1 p2 msg).heap p1).Rank = (s.heap p1).Rank + 1 ∧
      ((resolveBoth s p1 p2 msg).heap p2).Rank = (s.heap p2).Rank - 1) ∧
    (index msg.Data "player_won" = JVal.str (s.heap p2).Username →
      ((resolveBoth s p1 p2 msg).heap p2).Rank = (s.heap p2).Rank + 1 ∧
      ((resolveBoth s p1 p2 msg).heap p1).Rank = (s.heap p1).Rank - 1) ∧
    RankExchange s (resolveBoth s p1 p2 msg) p1 p2 ∧
    ∀ r, r ≠ p1 → r ≠ p2 → (resolveBoth s p1 p2 msg).heap r = s.heap r := by
  have h1 : ((resolveBoth s p1 p2 msg).heap p1).Rank =
      if index msg.Data "player_won" = JVal.str (s.heap p1).Username
      then (s.heap p1).Rank + 1 else (s.heap p1).Rank - 1 := by
    unfold resolveBoth
    rw [sendDuelResults_heap_other _ _ _ _ _ hne, sendDuelResults_rank]
  have h2 : ((resolveBoth s p1 p2 msg).heap p2).Rank =
      if index msg.Data "player_won" = JVal.str (s.heap p2).Username
      then (s.heap p2).Rank + 1 else (s.heap p2).Rank - 1 := by
    unfold resolveBoth
    rw [sendDuelResults_rank, sendDuelResults_username,
      sendDuelResults_heap_other _ _ _ _ _ (Ne.symm hne)]
  have h12 : ¬ (JVal.str (s.heap p1).Username = JVal.str (s.heap p2).Username) := by
    intro h; exact hu (JVal.str.inj h)
  have h21 : ¬ (JVal.str (s.heap p2).Username = JVal.str (s.heap p1).Username) := by
    intro h; exact hu (JVal.str.inj h).symm
  have hfirst : index msg.Data "player_won" = JVal.str (s.heap p1).Username →
      ((resolveBoth s p1 p2 msg).heap p1).Rank = (s.heap p1).Rank + 1 ∧
      ((resolveBoth s p1 p2 msg).heap p2).Rank = (s.heap p2).Rank - 1 := by
    intro h
    rw [h1, h2]
    simp [h, h12]
  have hsecond : index msg.Data "player_won" = JVal.str (s.heap p2).Username →
      ((resolveBoth s p1 p2 msg).heap p2).Rank = (s.heap p2).Rank + 1 ∧
      ((resolveBoth s p1 p2 msg).heap p1).Rank = (s.heap p1).Rank - 1 := by
    intro h
    rw [h1, h2]
    simp [h, h21]
  refine ⟨hfirst, hsecond, ?_, ?_⟩
  · unfold RankExchange
    rcases hw with hw | hw
    · exact Or.inl (hfirst hw)
    · exact Or.inr ⟨(hsecond hw).2, (hsecond hw).1⟩
  · intro r hr1 hr2
    unfold resolveBoth
    rw [sendDuelResults_heap_other _ _ _ _ _ hr2, sendDuelResults_heap_other _ _ _ _ _ hr1]

theorem resolveBoth_rank_exchange_witness :
    ((0 : Ptr) ≠ 1 ∧ (twoPlayers.heap 0).Username ≠ (twoPlayers.heap 1).Username ∧
      index (gameEnd "bob").Data "player_won" = JVal.str (twoPlayers.heap 1).Username ∧
      (twoPlayers.heap 0).Rank = 5 ∧ (twoPlayers.heap 1).Rank = 5) ∧
    (((resolveBoth twoPlayers 0 1 (gameEnd "bob")).heap 1).Rank = 6 ∧
      ((resolveBoth twoPlayers 0 1 (gameEnd "bob")).heap 0).Rank = 4) ∧
    (((resolveBoth twoPlayers 0 1 (gameEnd "bob")).heap 1).Rank =
        (twoPlayers.heap 1).Rank + 1 ∧
      ((resolveBoth twoPlayers 0 1 (gameEnd "bob")).heap 0).Rank =
        (twoPlayers.heap 0).Rank - 1) ∧
    RankExchange twoPlayers (resolveBoth twoPlayers 0 1 (gameEnd "bob")) 0 1 ∧
    ∀ r, r ≠ 0 → r ≠ 1 →
      (resolveBoth twoPlayers 0 1 (gameEnd "bob")).heap r = twoPlayers.heap r :=
  ⟨⟨by decide, by decide, by decide, by decide, by decide⟩,
   ⟨by decide, by decide⟩,
   (resolveBoth_rank_exchange twoPlayers 0 1 (gameEnd "bob") (by decide) (by decide)
      (Or.inr (by decide))).2.1 (by decide),
   (resolveBoth_rank_exchange twoPlayers 0 1 (gameEnd "bob") (by decide) (by decide)
      (Or.inr (by decide))).2.2⟩

/-- C1 (as stated) fails: a `game-end` message whose `player_won` names neither
participant makes both of them lose one rank point. -/
theorem resolveBoth_unknown_winner_both_lose :
    ((resolveBoth twoPlayers 0 1 (gameEnd "carol")).heap 0).Rank = 4 ∧
    ((resolveBoth twoPlayers 0 1 (gameEnd "carol")).heap 1).Rank = 4 ∧
    ¬ RankExchange twoPlayers (resolveBoth twoPlayers 0 1 (gameEnd "carol")) 0 1 := by
  refine ⟨by decide, by decide, ?_⟩
  unfold RankExchange
  decide

/-- C7: for distinct participants `p` and `q` with distinct usernames and a
`game-end` message naming `p`, resolution writes to `p` a `game-end` result naming
`p` with `new_rank` one above `p`'s rank, and to `q` a `game-end` result naming `p`
with `new_rank` one below `q`'s rank, whichever of the two resolves first. -/
theorem sendDuelResults_notifies_both (s : Server) (p q : Ptr) (msg : DuelMessage)
    (hne : p ≠ q) (hu : (s.heap p).Username ≠ (s.heap q).Username)
    (ht : msg.Typ = "game-end")
    (hw : index msg.Data "player_won" = JVal.str (s.heap p).Username) :
    (resolveBoth s p q msg).out = s.out ++
        [((s.heap p).conn,
            OutMsg.duelResult "game-end" (s.heap p).Username ((s.heap p).Rank + 1)),
         ((s.heap q).conn,
            OutMsg.duelResult "game-end" (s.heap p).Username ((s.heap q).Rank - 1))] ∧
    (resolveBoth s q p msg).out = s.out ++
        [((s.heap q).conn,
            OutMsg.duelResult "game-end" (s.heap p).Username ((s.heap q).Rank - 1)),
         ((s.heap p).conn,
            OutMsg.duelResult "game-end" (s.heap p).Username ((s.heap p).Rank + 1))] := by
  have hq : ¬ (JVal.str (s.heap p).Username = JVal.str (s.heap q).Username) := by
    intro h; exact hu (JVal.str.inj h)
  constructor
  · unfold resolveBoth
    rw [sendDuelResults_out, sendDuelResults_out, sendDuelResults_username,
      sendDuelResults_username, sendDuelResults_conn,
      sendDuelResults_heap_other _ _ _ _ _ (Ne.symm hne)]
    simp [hw, hq, ht]
  · unfold resolveBoth
    rw [sendDuelResults_out, sendDuelResults_out, sendDuelResults_username,
      sendDuelResults_username, sendDuelResults_conn,
      sendDuelResults_heap_other _ _ _ _ _ hne]
    simp [hw, hq, ht]

theorem sendDuelResults_notifies_both_witness :
    (twoPlayers.heap 0 = NewPlayer "alice" 0 ∧ twoPlayers.heap 1 = NewPlayer "bob" 1 ∧
      (NewPlayer "alice" 0).Rank = 5 ∧ (NewPlayer "bob" 1).Rank = 5) ∧
    (resolveBoth twoPlayers 0 1 (gameEnd "alice")).out = twoPlayers.out ++
        [((twoPlayers.heap 0).conn, OutMsg.duelResult "game-end" (twoPlayers.heap 0).Username
            ((twoPlayers.heap 0).Rank + 1)),
         ((twoPlayers.heap 1).conn, OutMsg.duelResult "game-end" (twoPlayers.heap 0).Username
            ((twoPlayers.heap 1).Rank - 1))] ∧
    (resolveBoth twoPlayers 0 1 (gameEnd "alice")).out =
        [(0, OutMsg.duelResult "game-end" "alice" 6),
         (1, OutMsg.duelResult "game-end" "alice" 4)] :=
  ⟨⟨by decide, by decide, by decide, by decide⟩,
   (sendDuelResults_notifies_both twoPlayers 0 1 (gameEnd "alice") (by decide) (by decide)
      (by decide) (by decide)).1,
   by decide⟩

/-- C9: when both players are already dueling, `duel` changes nothing and sends
nothing; otherwise its pairing step leaves both players dueling and not
matchmaking with their ranks unchanged, and has written to `p1` an `enter-duel`
acknowledgment with status Found, position `left` and `p2`'s username and rank, and
to `p2` one with position `right` and `p1`'s username and rank. -/
theorem duel_pairing (s : Server) (p1 p2 : Ptr) :
    (((s.heap p1).dueling = true ∧ (s.heap p2).dueling = true) → duel s p1 p2 = s) ∧
    (¬ ((s.heap p1).dueling = true ∧ (s.heap p2).dueling = true) →
      ((duel s p1 p2).heap p1).dueling = true ∧ ((duel s p1 p2).heap p2).dueling = true ∧
      ((duel s p1 p2).heap p1).matchmaking = false ∧
      ((duel s p1 p2).heap p2).matchmaking = false ∧
      (∀ r, ((duel s p1 p2).heap r).Rank = (s.heap r).Rank) ∧
      (duel s p1 p2).out = s.out ++
        [((s.heap p1).conn, OutMsg.enterDuelSuccess "enter-duel"
            ("Successfully started duel with \"" ++ (s.heap p2).Username ++ "\"")
            FoundDuelStatus "left" (s.heap p2).Username (s.heap p2).Rank),
         ((s.heap p2).conn, OutMsg.enterDuelSuccess "enter-duel"
            ("Successfully started duel with \"" ++ (s.heap p1).Username ++ "\"")
            FoundDuelStatus "right" (s.heap p1).Username (s.heap p1).Rank)]) := by
  constructor
  · rintro ⟨h1, h2⟩
    simp [duel, h1, h2]
  · intro h
    have hc : ((s.heap p1).dueling && (s.heap p2).dueling) = false := by
      cases h1 : (s.heap p1).dueling <;> cases h2 : (s.heap p2).dueling <;> simp_all
    unfold duel
    rw [hc]
    simp only [Bool.false_eq_true, if_false]
    by_cases h12 : p1 = p2
    · subst h12
      refine ⟨?_, ?_, ?_, ?_, ?_, ?_⟩ <;>
        first
          | (intro r; by_cases hr : r = p1 <;> simp [sendEnterDuelSuccess, WriteJSON, store, hr])
          | simp [sendEnterDuelSuccess, WriteJSON, store]
    · have h21 : p2 ≠ p1 := Ne.symm h12
      refine ⟨?_, ?_, ?_, ?_, ?_, ?_⟩ <;>
        first
          | (intro r; by_cases hr1 : r = p1 <;> by_cases hr2 : r = p2 <;>
              simp [sendEnterDuelSuccess, WriteJSON, store, hr1, hr2, h12, h21])
          | simp [sendEnterDuelSuccess, WriteJSON, store, h12, h21]

theorem duel_pairing_witness :
    ¬ ((twoPlayers.heap 0).dueling = true ∧ (twoPlayers.heap 1).dueling = true) ∧
    ((duel twoPlayers 0 1).heap 0).dueling = true ∧
    ((duel twoPlayers 0 1).heap 1).dueling = true ∧
    (duel twoPlayers 0 1).out =
      [(0, OutMsg.enterDuelSuccess "enter-duel" "Successfully started duel with \"bob\""
            1 "left" "bob" 5),
       (1, OutMsg.enterDuelSuccess "enter-duel" "Successfully started duel with \"alice\""
            1 "right" "alice" 5)] ∧
    (((duel twoPlayers 0 1).heap 0).dueling = true ∧
      ((duel twoPlayers 0 1).heap 1).dueling = true →
      duel (duel twoPlayers 0 1) 0 1 = duel twoPlayers 0 1) :=
  ⟨by decide,
   ((duel_pairing twoPlayers 0 1).2 (by decide)).1,
   ((duel_pairing twoPlayers 0 1).2 (by decide)).2.1,
   by decide,
   (duel_pairing (duel twoPlayers 0 1) 0 1).1⟩

theorem scanEntry_some (heap : Ptr → Player) (player : Ptr) (acc : Int × Option Ptr)
    (curr m : Ptr) (h : (scanEntry heap player acc curr).2 = some m) :
    acc.2 = some m ∨ (curr = m ∧ eligible heap player m = true) := by
  unfold scanEntry at h
  by_cases he : eligible heap player curr = true
  · by_cases hd : rankDiff heap player curr < acc.1
    · simp [he, hd] at h
      right
      exact ⟨h, h ▸ he⟩
    · simp [he, hd] at h
      exact Or.inl h
  · simp [he] at h
    exact Or.inl h

theorem scanFrom_some (heap : Ptr → Player) (player : Ptr) (order : List (String × Ptr)) :
    ∀ (acc : Int × Option Ptr) (m : Ptr), (scanFrom heap player acc order).2 = some m →
      acc.2 = some m ∨ ∃ e ∈ order, e.2 = m ∧ eligible heap player m = true := by
  induction order with
  | nil =>
    intro acc m h
    exact Or.inl h
  | cons a rest ih =>
    intro acc m h
    have h' : (scanFrom heap player (scanEntry heap player acc a.2) rest).2 = some m := h
    rcases ih _ m h' with h1 | ⟨e, he, hm, hel⟩
    · rcases scanEntry_some heap player acc a.2 m h1 with h2 | ⟨h2, h3⟩
      · exact Or.inl h2
      · exact Or.inr ⟨a, List.mem_cons_self _ _, h2, h3⟩
    · exact Or.inr ⟨e, List.mem_cons_of_mem _ he, hm, hel⟩

/-- C2: whenever a pass of `enterDuel` selects an opponent `m`, `m` is the player of
a registry entry, is not the requesting player, has `matchmaking` set and has
`dueling` clear in the state the pass read. -/
theorem enterDuelPass_found_eligible (s : Server) (username : String) (player m : Ptr)
    (h : enterDuelPass s username player = Pass.found m) :
    (∃ name, (name, m) ∈ s.players) ∧ m ≠ player ∧
      (s.heap m).matchmaking = true ∧ (s.heap m).dueling = false := by
  unfold enterDuelPass at h
  split_ifs at h
  cases hs : scanPlayers s.heap player s.players with
  | none => simp [hs] at h
  | some m' =>
    simp [hs] at h
    subst h
    unfold scanPlayers at hs
    rcases scanFrom_some s.heap player s.players _ m' hs with h0 | ⟨e, he, hm, hel⟩
    · simp at h0
    · refine ⟨⟨e.1, ?_⟩, ?_⟩
      · rw [← hm]; exact he
      · have h3 := hel
        simp [eligible] at h3
        exact ⟨h3.1.1, h3.2, h3.1.2⟩

theorem enterDuelPass_found_eligible_witness :
    enterDuelPass bobWaiting "alice" 0 = Pass.found 1 ∧
      ((∃ name, (name, 1) ∈ bobWaiting.players) ∧ (1 : Ptr) ≠ 0 ∧
        (bobWaiting.heap 1).matchmaking = true ∧ (bobWaiting.heap 1).dueling = false) :=
  ⟨by decide, enterDuelPass_found_eligible bobWaiting "alice" 0 1 (by decide)⟩

theorem scanFrom_spec (heap : Ptr → Player) (player : Ptr) (order : List (String × Ptr)) :
    ∀ acc : Int × Option Ptr,
      (scanFrom heap player acc order = acc ∧
        ∀ x ∈ order, eligible heap player x.2 = true → acc.1 ≤ rankDiff heap player x.2) ∨
      (∃ pre e post, order = pre ++ e :: post ∧ eligible heap player e.2 = true ∧
        scanFrom heap player acc order = (rankDiff heap player e.2, some e.2) ∧
        rankDiff heap player e.2 < acc.1 ∧
        (∀ x ∈ pre, eligible heap player x.2 = true →
          rankDiff heap player e.2 < rankDiff heap player x.2) ∧
        (∀ x ∈ post, eligible heap player x.2 = true →
          rankDiff heap player e.2 ≤ rankDiff heap player x.2)) := by
  induction order with
  | nil =>
    intro acc
    left
    exact ⟨rfl, by simp⟩
  | cons a rest ih =>
    intro acc
    have hstep : scanFrom heap player acc (a :: rest) =
        scanFrom heap player (scanEntry heap player acc a.2) rest := rfl
    by_cases hup : eligible heap player a.2 = true ∧ rankDiff heap player a.2 < acc.1
    · have hacc : scanEntry heap player acc a.2 = (rankDiff heap player a.2, some a.2) := by
        simp [scanEntry, hup.1, hup.2]
      right
      rcases ih (scanEntry heap player acc a.2) with ⟨heq, hall⟩ | ⟨pre, e, post, ho, hel, hres, hlt, hpre, hpost⟩
      · refine ⟨[], a, rest, rfl, hup.1, ?_, hup.2, by simp, ?_⟩
        · rw [hstep, heq, hacc]
        · intro x hx hxe
          have := hall x hx hxe
          rw [hacc] at this
          exact this
      · rw [hacc] at hlt
        refine ⟨a :: pre, e, post, by rw [ho]; rfl, hel, ?_, lt_trans hlt hup.2, ?_, hpost⟩
        · rw [hstep, hres]
        · intro x hx hxe
          rcases List.mem_cons.mp hx with hxa | hxp
          · rw [hxa]; exact hlt
          · exact hpre x hxp hxe
    · have hacc : scanEntry heap player acc a.2 = acc := by
        unfold scanEntry
        by_cases he : eligible heap player a.2 = true
        · have : ¬ rankDiff heap player a.2 < acc.1 := fun h => hup ⟨he, h⟩
          simp [he, this]
        · simp [he]
      have ha : eligible heap player a.2 = true → acc.1 ≤ rankDiff heap player a.2 := by
        intro he
        exact not_lt.mp fun h => hup ⟨he, h⟩
      rcases ih (scanEntry heap player acc a.2) with ⟨heq, hall⟩ | ⟨pre, e, post, ho, hel, hres, hlt, hpre, hpost⟩
      · left
        refine ⟨by rw [hstep, heq, hacc], ?_⟩
        intro x hx hxe
        rcases List.mem_cons.mp hx with hxa | hxp
        · rw [hxa] at hxe ⊢; exact ha hxe
        · have := hall x hxp hxe
          rw [hacc] at this
          exact this
      · right
        rw [hacc] at hlt
        refine ⟨a :: pre, e, post, by rw [ho]; rfl, hel, ?_, hlt, ?_, hpost⟩
        · rw [hstep, hres]
        · intro x hx hxe
          rcases List.mem_cons.mp hx with hxa | hxp
          · rw [hxa] at hxe ⊢; exact lt_of_lt_of_le hlt (ha hxe)
          · exact hpre x hxp hxe

theorem rankDiff_lt_MaxFloat64 (heap : Ptr → Player) (player curr : Ptr)
    (hp : ExactRank (heap player).Rank) (hc : ExactRank (heap curr).Rank) :
    rankDiff heap player curr < MaxFloat64 := by
  unfold ExactRank at hp hc
  unfold rankDiff MaxFloat64
  have h1 := abs_le.mp hp
  have h2 := abs_le.mp hc
  rw [abs_lt]
  constructor <;> omega

/-- C3: with the requester's username in the registry and all ranks in the exact
range, the scan of one pass selects an opponent if and only if some entry is
eligible; the opponent selected is an eligible entry such that every eligible entry
before it in iteration order is strictly farther in rank and every eligible entry
after it is at least as far; and a pass of a requester that is not dueling ends
with exactly what the scan selected. -/
theorem scanPlayers_earliest_closest (s : Server) (username : String) (player : Ptr)
    (hpresent : (s.players.lookup username).isSome = true)
    (hp : ExactRank (s.heap player).Rank)
    (ho : ∀ e ∈ s.players, ExactRank (s.heap e.2).Rank) :
    ((∃ m, scanPlayers s.heap player s.players = some m) ↔
      ∃ e ∈ s.players, eligible s.heap player e.2 = true) ∧
    (∀ m, scanPlayers s.heap player s.players = some m →
      ∃ pre name post, s.players = pre ++ (name, m) :: post ∧
        eligible s.heap player m = true ∧
        (∀ x ∈ pre, eligible s.heap player x.2 = true →
          rankDiff s.heap player m < rankDiff s.heap player x.2) ∧
        (∀ x ∈ post, eligible s.heap player x.2 = true →
          rankDiff s.heap player m ≤ rankDiff s.heap player x.2)) ∧
    ((s.heap player).dueling = false →
      enterDuelPass s username player =
        match scanPlayers s.heap player s.players with
        | none => Pass.again
        | some m => Pass.found m) := by
  have hsel : ∀ m, scanPlayers s.heap player s.players = some m →
      ∃ pre name post, s.players = pre ++ (name, m) :: post ∧
        eligible s.heap player m = true ∧
        (∀ x ∈ pre, eligible s.heap player x.2 = true →
          rankDiff s.heap player m < rankDiff s.heap player x.2) ∧
        (∀ x ∈ post, eligible s.heap player x.2 = true →
          rankDiff s.heap player m ≤ rankDiff s.heap player x.2) := by
    intro m hm
    unfold scanPlayers at hm
    rcases scanFrom_spec s.heap player s.players (MaxFloat64, none) with
      ⟨heq, _⟩ | ⟨pre, e, post, hord, hel, hres, _, hpre, hpost⟩
    · rw [heq] at hm
      simp at hm
    · rw [hres] at hm
      have hem : e.2 = m := by simpa using hm
      refine ⟨pre, e.1, post, ?_, hem ▸ hel, ?_, ?_⟩
      · rw [hord, ← hem]
      · intro x hx hxe
        rw [← hem]; exact hpre x hx hxe
      · intro x hx hxe
        rw [← hem]; exact hpost x hx hxe
  refine ⟨⟨?_, ?_⟩, hsel, ?_⟩
  · rintro ⟨m, hm⟩
    obtain ⟨pre, name, post, hord, hel, _, _⟩ := hsel m hm
    exact ⟨(name, m), by rw [hord]; simp, hel⟩
  · rintro ⟨e, he, hel⟩
    unfold scanPlayers
    rcases scanFrom_spec s.heap player s.players (MaxFloat64, none) with
      ⟨_, hall⟩ | ⟨pre, e', post, _, _, hres, _, _, _⟩
    · have h1 := hall e he hel
      have h2 := rankDiff_lt_MaxFloat64 s.heap player e.2 hp (ho e he)
      exact absurd (lt_of_lt_of_le h2 h1) (lt_irrefl _)
    · exact ⟨e'.2, by rw [hres]⟩
  · intro hd
    unfold enterDuelPass
    simp [hd, hpresent]

theorem scanPlayers_earliest_closest_witness :
    ((tieWaiting.players.lookup "alice").isSome = true ∧
      ExactRank (tieWaiting.heap 0).Rank ∧
      ∀ e ∈ tieWaiting.players, ExactRank (tieWaiting.heap e.2).Rank) ∧
    (rankDiff tieWaiting.heap 0 1 = 2 ∧ rankDiff tieWaiting.heap 0 2 = 2) ∧
    scanPlayers tieWaiting.heap 0 tieWaiting.players = some 1 ∧
    enterDuelPass tieWaiting "alice" 0 = Pass.found 1 ∧
    ((∃ m, scanPlayers tieWaiting.heap 0 tieWaiting.players = some m) ↔
      ∃ e ∈ tieWaiting.players, eligible tieWaiting.heap 0 e.2 = true) :=
  ⟨⟨by decide, by decide, by decide⟩, ⟨by decide, by decide⟩, by decide, by decide,
   (scanPlayers_earliest_closest tieWaiting "alice" 0 (by decide) (by decide)
      (by decide)).1⟩

theorem utf8ByteSize_go_ge_length (cs : List Char) :
    cs.length ≤ String.utf8ByteSize.go cs := by
  induction cs with
  | nil => simp [String.utf8ByteSize.go]
  | cons c cs ih =>
    have hc : 0 < c.utf8Size := Char.utf8Size_pos c
    simp only [String.utf8ByteSize.go, List.length_cons]
    omega

theorem length_le_utf8ByteSize (u : String) : u.length ≤ u.utf8ByteSize := by
  cases u with
  | mk cs => exact utf8ByteSize_go_ge_length cs

/-- C4: a request that fails validation is answered with one
`<request_type>-error` envelope written to the sender and changes nothing else: the
registry, every session's player, every player record, the matchmakers, the duels
and the number of broadcasts are as before. -/
theorem handleRequest_validation_error (s : Server) (c : ConnId) (e : Envelope)
    (h : FailsValidation s c e) :
    ∃ msg, handleRequest s c e =
      Outcome.done { s with out := s.out ++ [(c, OutMsg.error (e.RequestType ++ "-error") msg)] } := by
  obtain ⟨rt, data⟩ := e
  rcases h with ⟨hrt, username, hu, hcase⟩ | ⟨hrt, hcase⟩ | ⟨hrt, hcase⟩ | ⟨hrt, hcase⟩
  · simp only at hrt hu
    subst hrt
    by_cases h1 : playerExists s username = true
    · exact ⟨"Player with username \"" ++ username ++ "\" already exists", by simp [handleRequest, hu, h1, writeErrMsg, WriteJSON]⟩
    · by_cases h2 : (s.connPlayer c).isSome = true
      · exact ⟨"Player is already registered on connection", by simp [handleRequest, hu, h1, h2, writeErrMsg, WriteJSON]⟩
      · have h3 : username.utf8ByteSize > 15 := by
          rcases hcase with h | h | h | h
          · exact absurd h h1
          · exact absurd h h2
          · exact lt_of_lt_of_le h (length_le_utf8ByteSize username)
          · exact h
        exact ⟨"Username must be under 16 characters", by simp [handleRequest, hu, h1, h2, h3, writeErrMsg, WriteJSON]⟩
  · simp only at hrt
    subst hrt
    rcases hcase with hn | ⟨p, hp, hflag⟩
    · exact ⟨"Player is not registered", by simp [handleRequest, hn, writeErrMsg, WriteJSON]⟩
    · have : ((s.heap p).dueling || (s.heap p).matchmaking) = true := by
        rcases hflag with h | h <;> simp [h]
      exact ⟨"Player already entered duel", by simp [handleRequest, hp, this, writeErrMsg, WriteJSON]⟩
  · simp only at hrt
    rcases hrt with hrt | hrt <;> subst hrt
    · rcases hcase with hn | ⟨p, hp, hflag⟩
      · exact ⟨"Player is not registered", by simp [handleRequest, hn, writeErrMsg, WriteJSON]⟩
      · exact ⟨"Player is not dueling", by simp [handleRequest, hp, hflag, writeErrMsg, WriteJSON]⟩
    · rcases hcase with hn | ⟨p, hp, hflag⟩
      · exact ⟨"Player is not registered", by simp [handleRequest, hn, writeErrMsg, WriteJSON]⟩
      · exact ⟨"Player is not dueling", by simp [handleRequest, hp, hflag, writeErrMsg, WriteJSON]⟩
  · simp only at hrt
    subst hrt
    exact ⟨"Player is not registered", by simp [handleRequest, hcase, writeErrMsg, WriteJSON]⟩

theorem handleRequest_validation_error_witness :
    FailsValidation twoPlayers 1 ⟨"new-player", [("username", JVal.str "alice")]⟩ ∧
    ∃ msg, handleRequest twoPlayers 1 ⟨"new-player", [("username", JVal.str "alice")]⟩ =
      Outcome.done
        { twoPlayers with
          out := twoPlayers.out ++ [(1, OutMsg.error ("new-player" ++ "-error") msg)] } :=
  ⟨Or.inl ⟨rfl, "alice", by decide, Or.inl (by decide)⟩,
   handleRequest_validation_error twoPlayers 1
     ⟨"new-player", [("username", JVal.str "alice")]⟩
     (Or.inl ⟨rfl, "alice", by decide, Or.inl (by decide)⟩)⟩

/-- C5 fails on the code: a decoded `new-player` envelope whose data has no
`username` entry, or has one that is not a string, makes the unchecked type
assertion `data.Data["username"].(string)` panic, in every server state. -/
theorem handleRequest_newPlayer_bad_username_panics (s : Server) (c : ConnId) :
    handleRequest s c ⟨"new-player", []⟩ = Outcome.panic ∧
    handleRequest s c ⟨"new-player", [("username", JVal.num 7)]⟩ = Outcome.panic ∧
    handleRequest s c ⟨"new-player", [("username", JVal.null)]⟩ = Outcome.panic :=
  ⟨rfl, rfl, rfl⟩

theorem sortInsert_perm (less : Ptr → Ptr → Bool) (x : Ptr) (l : List Ptr) :
    (sortInsert less x l).Perm (x :: l) := by
  induction l with
  | nil => exact List.Perm.refl _
  | cons y ys ih =>
    unfold sortInsert
    by_cases h : less y x = true
    · simp only [h, if_true]
      exact (List.Perm.cons y ih).trans (List.Perm.swap x y ys)
    · simp only [h]
      exact List.Perm.refl _

theorem sortSlice_perm (less : Ptr → Ptr → Bool) (l : List Ptr) :
    (sortSlice less l).Perm l := by
  induction l with
  | nil => exact List.Perm.refl _
  | cons x xs ih =>
    unfold sortSlice
    exact (sortInsert_perm less x _).trans (List.Perm.cons x ih)

theorem sortInsert_rank_sorted (heap : Ptr → Player) (x : Ptr) (l : List Ptr)
    (hl : l.Pairwise fun a b => (heap b).Rank ≤ (heap a).Rank) :
    (sortInsert (rankLess heap) x l).Pairwise fun a b => (heap b).Rank ≤ (heap a).Rank := by
  induction l with
  | nil => simp [sortInsert]
  | cons y ys ih =>
    have hy := List.pairwise_cons.mp hl
    unfold sortInsert
    by_cases h : rankLess heap y x = true
    · simp only [h, if_true]
      have hyx : (heap x).Rank < (heap y).Rank := by simpa [rankLess] using h
      refine List.pairwise_cons.mpr ⟨?_, ih hy.2⟩
      intro b hb
      rcases List.mem_cons.mp ((sortInsert_perm (rankLess heap) x ys).mem_iff.mp hb) with hbx | hbys
      · rw [hbx]; exact le_of_lt hyx
      · exact hy.1 b hbys
    · simp only [h]
      have hxy : (heap y).Rank ≤ (heap x).Rank := by
        have : ¬ (heap x).Rank < (heap y).Rank := by simpa [rankLess] using h
        exact not_lt.mp this
      refine List.pairwise_cons.mpr ⟨?_, hl⟩
      intro b hb
      rcases List.mem_cons.mp hb with hby | hbys
      · rw [hby]; exact hxy
      · exact le_trans (hy.1 b hbys) hxy

theorem sortSlice_rank_sorted (heap : Ptr → Player) (l : List Ptr) :
    (sortSlice (rankLess heap) l).Pairwise fun a b => (heap b).Rank ≤ (heap a).Rank := by
  induction l with
  | nil => simp [sortSlice]
  | cons x xs ih =>
    unfold sortSlice
    exact sortInsert_rank_sorted heap x _ ih

theorem broadcastLoop_out (msg : OutMsg) (l : List (String × Ptr)) :
    ∀ s : Server, ∃ targets : List ConnId,
      (broadcastLoop msg l s).1.out = s.out ++ targets.map fun c => (c, msg) := by
  induction l with
  | nil =>
    intro s
    exact ⟨[], by simp [broadcastLoop]⟩
  | cons e rest ih =>
    intro s
    have hcons : broadcastLoop msg (e :: rest) s =
        if (WriteJSON s (s.heap e.2).conn msg).2 = true
        then ((WriteJSON s (s.heap e.2).conn msg).1, true)
        else broadcastLoop msg rest (WriteJSON s (s.heap e.2).conn msg).1 := rfl
    rw [hcons]
    by_cases hf : (WriteJSON s (s.heap e.2).conn msg).2 = true
    · rw [if_pos hf]
      exact ⟨[(s.heap e.2).conn], by simp [WriteJSON]⟩
    · obtain ⟨targets, ht⟩ := ih (WriteJSON s (s.heap e.2).conn msg).1
      refine ⟨(s.heap e.2).conn :: targets, ?_⟩
      rw [if_neg hf, ht]
      simp [WriteJSON]

/-- C6: the slice that `broadcastPlayers` sorts is a permutation of the players of
the registry and ends up in order of non-increasing rank; the `players-update`
notification carries exactly that slice, its ranks non-increasing; and everything
`broadcastPlayers` writes is that notification. -/
theorem broadcastPlayers_sorted_snapshot (s : Server) :
    (sortedPlayers s).Perm (s.players.map Prod.snd) ∧
    (sortedPlayers s).Pairwise (fun a b => (s.heap b).Rank ≤ (s.heap a).Rank) ∧
    (∃ players : List (String × Int),
      playersUpdate s = OutMsg.playersUpdate "players-update" players ∧
      players = (sortedPlayers s).map (fun p => ((s.heap p).Username, (s.heap p).Rank)) ∧
      players.Pairwise (fun a b => b.2 ≤ a.2)) ∧
    (∃ targets : List ConnId,
      (broadcastPlayers s).1.out = s.out ++ targets.map fun c => (c, playersUpdate s)) := by
  refine ⟨sortSlice_perm _ _, sortSlice_rank_sorted _ _, ⟨_, rfl, rfl, ?_⟩, ?_⟩
  · rw [List.pairwise_map]
    exact sortSlice_rank_sorted _ _
  · unfold broadcastPlayers broadcastJSON
    exact broadcastLoop_out _ _ _

theorem store_store (heap : Ptr → Player) (p : Ptr) (v w : Player) :
    store (store heap p v) p w = store heap p w := by
  funext q
  by_cases h : q = p <;> simp [store, h]

theorem broadcastLoop_frame (msg : OutMsg) (l : List (String × Ptr)) :
    ∀ s : Server, (broadcastLoop msg l s).1.players = s.players ∧
      (broadcastLoop msg l s).1.heap = s.heap ∧
      (broadcastLoop msg l s).1.connPlayer = s.connPlayer ∧
      (broadcastLoop msg l s).1.duels = s.duels := by
  induction l with
  | nil =>
    intro s
    exact ⟨rfl, rfl, rfl, rfl⟩
  | cons e rest ih =>
    intro s
    have hcons : broadcastLoop msg (e :: rest) s =
        if (WriteJSON s (s.heap e.2).conn msg).2 = true
        then ((WriteJSON s (s.heap e.2).conn msg).1, true)
        else broadcastLoop msg rest (WriteJSON s (s.heap e.2).conn msg).1 := rfl
    rw [hcons]
    by_cases hf : (WriteJSON s (s.heap e.2).conn msg).2 = true
    · rw [if_pos hf]
      exact ⟨rfl, rfl, rfl, rfl⟩
    · rw [if_neg hf]
      exact ih _

theorem broadcastPlayers_frame (s : Server) :
    (broadcastPlayers s).1.players = s.players ∧ (broadcastPlayers s).1.heap = s.heap ∧
      (broadcastPlayers s).1.connPlayer = s.connPlayer ∧
      (broadcastPlayers s).1.duels = s.duels := by
  unfold broadcastPlayers broadcastJSON
  exact broadcastLoop_frame _ _ _

theorem mapDelete_lookup (m : List (String × Ptr)) (k : String) :
    (mapDelete m k).lookup k = none := by
  induction m with
  | nil => rfl
  | cons e rest ih =>
    unfold mapDelete at ih ⊢
    by_cases h : e.1 = k
    · simp [List.filter, h]
      simpa using ih
    · have hk : (k == e.1) = false := by
        simp [beq_eq_false_iff_ne]
        exact fun hke => h hke.symm
      simp [List.filter, h, List.lookup, hk]
      simpa using ih

theorem chanRecv_cons (s : Server) (p : Ptr) (msg : DuelMessage) (rest : List DuelMessage)
    (h : (s.heap p).duelChan = msg :: rest) :
    chanRecv s p =
      some (msg, { s with heap := store s.heap p { s.heap p with duelChan := rest } }) := by
  unfold chanRecv
  rw [h]

theorem duelPlayerRecv_gameEnd_self (t : Server) (q p : Ptr) :
    ((duelPlayerRecv t q p (gameEnd (t.heap q).Username)).heap q).Rank = (t.heap q).Rank + 1 ∧
    (duelPlayerRecv t q p (gameEnd (t.heap q).Username)).out = t.out ++
      [((t.heap q).conn, OutMsg.duelResult "game-end" (t.heap q).Username
          ((t.heap q).Rank + 1))] := by
  unfold duelPlayerRecv
  constructor <;>
    simp [gameEnd, sendDuelResults, index, List.lookup, WriteJSON, store]

/-- C8: `p`'s session (connection `c`, empty mailbox) handles `sign-out` while `p`
duels `q`.  The handler completes; the `sign-out` message is then in `p`'s mailbox,
and `p`'s relay, taking it, pushes on both relay channels a `game-end` message whose
`player_won` is `q`'s username; `q`'s relay resolving that message raises `q`'s rank
by one and writes to `q` a result naming `q`; and after the handler `p`'s username is
not in the registry, the session owns no player, and all other registry entries,
player records and sessions are unchanged. -/
theorem signOut_declares_opponent_winner (s : Server) (c : ConnId) (p q : Ptr)
    (data : DataMap) (hown : s.connPlayer c = some p) (hne : p ≠ q)
    (hmail : (s.heap p).duelChan = []) :
    ∃ s', handleRequest s c ⟨"sign-out", data⟩ = Outcome.done s' ∧
      (∃ s'', chanRecv s' p = some (⟨"sign-out", []⟩, s'') ∧
        forward s'' q ⟨"sign-out", []⟩ =
          { toPlayerChan := [gameEnd (s.heap q).Username],
            toOtherChan := [gameEnd (s.heap q).Username], exit := true } ∧
        ((duelPlayerRecv s'' q p (gameEnd (s.heap q).Username)).heap q).Rank =
          (s.heap q).Rank + 1 ∧
        (duelPlayerRecv s'' q p (gameEnd (s.heap q).Username)).out = s''.out ++
          [((s.heap q).conn, OutMsg.duelResult "game-end" (s.heap q).Username
              ((s.heap q).Rank + 1))]) ∧
      s'.players.lookup (s.heap p).Username = none ∧
      s'.connPlayer c = none ∧
      s'.players = s.players.filter (fun e => decide (e.1 ≠ (s.heap p).Username)) ∧
      (∀ r, r ≠ p → s'.heap r = s.heap r) ∧
      (∀ d, d ≠ c → s'.connPlayer d = s.connPlayer d) := by
  have hq : q ≠ p := Ne.symm hne
  obtain ⟨s2, hreq, h2heap, h2players, h2conn⟩ : ∃ s2 : Server,
      handleRequest s c ⟨"sign-out", data⟩ = Outcome.done (broadcastPlayers s2).1 ∧
      s2.heap = store s.heap p { s.heap p with dueling := false, matchmaking := false, duelChan := [⟨"sign-out", []⟩] } ∧
      s2.players = mapDelete s.players (s.heap p).Username ∧
      s2.connPlayer = (fun d => if d = c then none else s.connPlayer d) := by
    refine ⟨{ s with
        heap := store s.heap p { s.heap p with dueling := false, matchmaking := false, duelChan := [⟨"sign-out", []⟩] },
        players := mapDelete s.players (s.heap p).Username,
        connPlayer := fun d => if d = c then none else s.connPlayer d }, ?_, rfl, rfl, rfl⟩
    simp [handleRequest, hown, chanSend, duelChanCap, store_same, store_store, hmail]
  obtain ⟨hplayers, hheap, hconn, _⟩ := broadcastPlayers_frame s2
  rw [h2heap] at hheap
  rw [h2players] at hplayers
  rw [h2conn] at hconn
  refine ⟨_, hreq, ?_, ?_, ?_, ?_, ?_, ?_⟩
  · have hbox : (((broadcastPlayers s2).1.heap p).duelChan) = [⟨"sign-out", []⟩] := by
      rw [hheap]
      simp [store]
    refine ⟨_, chanRecv_cons _ p _ _ hbox, ?_, ?_⟩
    · simp [forward, gameEnd, hheap, store, hq]
    · have hres := duelPlayerRecv_gameEnd_self
        { (broadcastPlayers s2).1 with
          heap := store (broadcastPlayers s2).1.heap p { (broadcastPlayers s2).1.heap p with duelChan := [] } }
        q p
      simpa [hheap, store_other _ _ _ _ hq] using hres
  · rw [hplayers]
    exact mapDelete_lookup _ _
  · rw [hconn]
    simp
  · rw [hplayers]
    rfl
  · intro r hr
    rw [hheap]
    simp [store, hr]
  · intro d hd
    rw [hconn]
    simp [hd]

theorem signOut_declares_opponent_winner_witness :
    (twoPlayers.connPlayer 0 = some 0 ∧ (twoPlayers.heap 0).duelChan = []) ∧
    ∃ s', handleRequest twoPlayers 0 ⟨"sign-out", []⟩ = Outcome.done s' ∧
      (∃ s'', chanRecv s' 0 = some (⟨"sign-out", []⟩, s'') ∧
        forward s'' 1 ⟨"sign-out", []⟩ =
          { toPlayerChan := [gameEnd (twoPlayers.heap 1).Username],
            toOtherChan := [gameEnd (twoPlayers.heap 1).Username], exit := true } ∧
        ((duelPlayerRecv s'' 1 0 (gameEnd (twoPlayers.heap 1).Username)).heap 1).Rank =
          (twoPlayers.heap 1).Rank + 1 ∧
        (duelPlayerRecv s'' 1 0 (gameEnd (twoPlayers.heap 1).Username)).out = s''.out ++
          [((twoPlayers.heap 1).conn, OutMsg.duelResult "game-end" (twoPlayers.heap 1).Username
              ((twoPlayers.heap 1).Rank + 1))]) ∧
      s'.players.lookup (twoPlayers.heap 0).Username = none ∧
      s'.connPlayer 0 = none ∧
      s'.players =
        twoPlayers.players.filter (fun e => decide (e.1 ≠ (twoPlayers.heap 0).Username)) ∧
      (∀ r, r ≠ 0 → s'.heap r = twoPlayers.heap r) ∧
      (∀ d, d ≠ 0 → s'.connPlayer d = twoPlayers.connPlayer d) :=
  ⟨⟨by decide, by decide⟩,
   signOut_declares_opponent_winner twoPlayers 0 0 1 [] (by decide) (by decide) (by decide)⟩

/-- C10 fails on the code: in the interleaving `doublePairing`, all of whose steps
can run, player `b` ends with `dueling` set while taking part in two started duels,
`(b, c)` and `(a, b)`. -/
theorem doublePairing_pairs_twice :
    (run NewServer doublePairing).map
        (fun s => (s.players, (s.heap 1).Username, (s.heap 1).dueling, s.duels, duelCount s 1)) =
      some ([("a", 0), ("b", 1), ("c", 2)], "b", true, [(1, 2), (0, 1)], 2) := by
  rfl

end Duel
